import Mathlib

/-!
A shallow embedding of the pdf-tools file intake / merge pipeline
(Angular services `PdfMergerService`, `PdfValidationService`,
`ImageCompressionService` and the `PdfManager` orchestrator), together
with theorems settling the specification claims about it.

External collaborators (the pdf-lib codec, the pdf.js loader and the
browser image encoder) are modelled as explicit environments of
functions; the services' own control flow is translated statement by
statement from the TypeScript source.
-/

/-- A browser `File` value as the services observe it: name, declared
media type, byte size, last-modified timestamp and the byte payload
(`arrayBuffer`). -/
structure File where
  name : String
  type : String
  size : Nat
  lastModified : Nat
  content : List Nat
deriving DecidableEq

/-- JavaScript `String.prototype.toLowerCase` on one character,
restricted to ASCII (every letter the services compare is ASCII). -/
def charToLower (c : Char) : Char :=
  if 65 ≤ c.toNat ∧ c.toNat ≤ 90 then Char.ofNat (c.toNat + 32) else c

/-- JavaScript `s.toLowerCase()`. -/
def jsToLower (s : String) : String :=
  ⟨s.data.map charToLower⟩

/-- JavaScript `s.startsWith(pre)`. -/
def jsStartsWith (s pre : String) : Bool :=
  pre.data.isPrefixOf s.data

/-- JavaScript `s.endsWith(suffix)`. -/
def jsEndsWith (s suffix : String) : Bool :=
  suffix.data.reverse.isPrefixOf s.data.reverse

namespace PdfValidationService

/-- Metadata block of `PdfValidationResult` (all fields optional). -/
structure PdfMetadata where
  title : Option String
  author : Option String
  subject : Option String
  keywords : Option String
deriving DecidableEq

/-- `PdfValidationResult` from `pdf-validation.service.ts`. -/
structure PdfValidationResult where
  isValid : Bool
  isEncrypted : Bool
  requiresPassword : Bool
  pageCount : Option Nat
  fileSize : Option Nat
  fileType : Option String
  metadata : Option PdfMetadata
  error : Option String
deriving DecidableEq

/-- The external pdf.js loader (`pdfjs.getDocument(...).promise`): on
success it resolves to a document proxy (we retain its page count); on
failure it rejects with an error message.  The service's 3-second
timeout race is representable as a rejection with message "timeout". -/
structure PdfJsEnv where
  getDocument : List Nat → Except String Nat

/-- The bytes of the string `%PDF-`, compared against the first five
bytes of the payload (`String.fromCharCode(...view.slice(0, 5))`). -/
def pdfHeaderBytes : List Nat := [37, 80, 68, 70, 45]

/-- The bytes of the string `/Encrypt`, searched for in the first
10 KB chunk. -/
def encryptMarkerBytes : List Nat := [47, 69, 110, 99, 114, 121, 112, 116]

/-- Whether `needle` occurs as a contiguous run inside `hay`. -/
def listIncludes [BEq α] (needle : List α) : List α → Bool
  | [] => needle.isEmpty
  | b :: bs => needle.isPrefixOf (b :: bs) || listIncludes needle bs

/-- JavaScript `hay.includes(needle)` on strings. -/
def strIncludes (hay needle : String) : Bool :=
  listIncludes needle.data hay.data

/-- The password / authentication / timeout markers checked on the
inner load error message. -/
def isPasswordMarkerMsg (msg : String) : Bool :=
  strIncludes msg "password" || strIncludes msg "Authentication" || strIncludes msg "timeout"

/-- `checkPdfEncryption(arrayBuffer, file?)`: header check, `/Encrypt`
scan over the first 10 KB, optional trial load, and the fall-through
"assume valid" return.  Mirrors `pdf-validation.service.ts` lines
69-157; note that when the trial load fails with a message carrying
none of the markers, the inner catch block falls through to the final
`isValid: true` return. -/
def checkPdfEncryption (env : PdfJsEnv) (arrayBuffer : List Nat) (file : Option File) :
    PdfValidationResult :=
  if arrayBuffer.take 5 ≠ pdfHeaderBytes then
    { isValid := false, isEncrypted := false, requiresPassword := false,
      pageCount := none, fileSize := file.map (fun f => f.size), fileType := file.map (fun f => f.type),
      metadata := none, error := some "Arquivo não é um PDF válido (header inválido)" }
  else
    let firstChunk := arrayBuffer.take (min 10000 arrayBuffer.length)
    let hasEncrypt := listIncludes encryptMarkerBytes firstChunk
    if hasEncrypt then
      match env.getDocument arrayBuffer with
      | .ok _ =>
          { isValid := true, isEncrypted := false, requiresPassword := false,
            pageCount := none, fileSize := file.map (fun f => f.size), fileType := file.map (fun f => f.type),
            metadata := none, error := none }
      | .error msg =>
          if isPasswordMarkerMsg msg then
            { isValid := true, isEncrypted := true, requiresPassword := true,
              pageCount := none, fileSize := file.map (fun f => f.size), fileType := file.map (fun f => f.type),
              metadata := none, error := some "PDF está protegido por senha" }
          else
            { isValid := true, isEncrypted := false, requiresPassword := false,
              pageCount := none, fileSize := file.map (fun f => f.size), fileType := file.map (fun f => f.type),
              metadata := none, error := none }
    else
      { isValid := true, isEncrypted := false, requiresPassword := false,
        pageCount := none, fileSize := file.map (fun f => f.size), fileType := file.map (fun f => f.type),
        metadata := none, error := none }

/-- `validatePdf(file)`: reads the payload and delegates to
`checkPdfEncryption`.  The surrounding try/catch only fires when the
byte read itself rejects, which the embedding's total `content` field
cannot do, so the body is the whole function. -/
def validatePdf (env : PdfJsEnv) (file : File) : PdfValidationResult :=
  checkPdfEncryption env file.content (some file)

end PdfValidationService

namespace PdfMergerService

/-- One page of the assembled output document: either a page copied
from a loaded source PDF (identified by the codec's page id) or a new
page bearing an embedded image. -/
inductive Page where
  | fromPdf (pageId : Nat)
  | fromImage (imageId : Nat)
deriving DecidableEq

/-- The external pdf-lib codec, abstracted: loading a PDF yields its
pages (their ids, in document order); embedding a JPEG or PNG yields
an image id.  Each operation may fail. -/
structure MergeEnv where
  loadPdf : File → Except String (List Nat)
  embedJpg : File → Except String Nat
  embedPng : File → Except String Nat

/-- The errors `PdfMergerService` throws, carrying the data its
messages interpolate.  `totalSizeExceeded` carries the actual total
and the allowed maximum that the thrown message names. -/
inductive MergeError where
  | noFiles
  | totalSizeExceeded (totalSize maxSize : Nat)
  | pdfMergeFailed
  | imageMergeFailed
deriving DecidableEq

def SUPPORTED_PDF : String := "application/pdf"

def SUPPORTED_JPEG : String := "image/jpeg"

def SUPPORTED_PNG : String := "image/png"

def MAX_TOTAL_SIZE_BYTES : Nat := 7 * 1024 * 1024

/-- `validateFiles`: throws when the list is empty. -/
def validateFiles (files : List File) : Except MergeError Unit :=
  if files.length = 0 then .error .noFiles else .ok ()

/-- Summed byte size, as the `reduce` over `file.size`. -/
def totalSize (files : List File) : Nat :=
  files.foldl (fun sum file => sum + file.size) 0

/-- `validateTotalSize`: throws when the summed size exceeds the 7 MiB
budget, naming the actual total and the maximum. -/
def validateTotalSize (files : List File) : Except MergeError Unit :=
  if totalSize files > MAX_TOTAL_SIZE_BYTES then
    .error (.totalSizeExceeded (totalSize files) MAX_TOTAL_SIZE_BYTES)
  else .ok ()

/-- `isImageFile(fileType)`. -/
def isImageFile (fileType : String) : Bool :=
  fileType == SUPPORTED_JPEG || fileType == SUPPORTED_PNG

/-- `mergePdfFile`: loads the external PDF, copies all of its pages in
index order and appends them to the output document; a codec failure
is caught and rethrown as `Failed to merge PDF file`. -/
def mergePdfFile (env : MergeEnv) (doc : List Page) (file : File) :
    Except MergeError (List Page) :=
  match env.loadPdf file with
  | .ok pageIds => .ok (doc ++ pageIds.map Page.fromPdf)
  | .error _ => .error .pdfMergeFailed

/-- `embedImage`: JPEG and PNG are embedded; any other type warns and
yields `null`. -/
def embedImage (env : MergeEnv) (file : File) : Except String (Option Nat) :=
  if file.type == SUPPORTED_JPEG then (env.embedJpg file).map some
  else if file.type == SUPPORTED_PNG then (env.embedPng file).map some
  else .ok none

/-- `mergeImageFile`: embeds the image and, when embedding yielded an
image, adds one new page bearing it; failures are caught and rethrown
as `Failed to merge image file`. -/
def mergeImageFile (env : MergeEnv) (doc : List Page) (file : File) :
    Except MergeError (List Page) :=
  match embedImage env file with
  | .ok (some imageId) => .ok (doc ++ [Page.fromImage imageId])
  | .ok none => .ok doc
  | .error _ => .error .imageMergeFailed

/-- `processFile`: dispatch on the declared media type; unsupported
types only warn. -/
def processFile (env : MergeEnv) (doc : List Page) (file : File) :
    Except MergeError (List Page) :=
  if file.type == SUPPORTED_PDF then mergePdfFile env doc file
  else if isImageFile file.type then mergeImageFile env doc file
  else .ok doc

/-- The `for (const file of files)` loop of `mergeFilesToPdf`. -/
def processAll (env : MergeEnv) (doc : List Page) : List File → Except MergeError (List Page)
  | [] => .ok doc
  | file :: rest =>
    match processFile env doc file with
    | .ok doc' => processAll env doc' rest
    | .error e => .error e

/-- `mergeFilesToPdf(files)`: validates the list and the total size,
creates an empty output document and processes each file in order.
The returned page list stands for the saved document's page
sequence. -/
def mergeFilesToPdf (env : MergeEnv) (files : List File) : Except MergeError (List Page) := do
  validateFiles files
  validateTotalSize files
  processAll env [] files

/-- Spec-side description of a single file's contribution to the
output: a PDF contributes all of its pages in original order, a JPEG
or PNG contributes exactly one new page bearing that image.  (The
`.error` fall-backs are never reached when the codec succeeds on the
file.) -/
def expectedPages (env : MergeEnv) (file : File) : List Page :=
  if file.type = SUPPORTED_PDF then
    match env.loadPdf file with
    | .ok pageIds => pageIds.map Page.fromPdf
    | .error _ => []
  else if file.type = SUPPORTED_JPEG then
    match env.embedJpg file with
    | .ok imageId => [Page.fromImage imageId]
    | .error _ => []
  else if file.type = SUPPORTED_PNG then
    match env.embedPng file with
    | .ok imageId => [Page.fromImage imageId]
    | .error _ => []
  else []

/-- `PageDimensions` from `pdf-merger.service.ts`, over ℚ. -/
structure PageDimensions where
  width : ℚ
  height : ℚ
deriving DecidableEq

/-- `ImageScaling` from `pdf-merger.service.ts`. -/
structure ImageScaling where
  scaleFactor : ℚ
  width : ℚ
  height : ℚ
  x : ℚ
  y : ℚ
deriving DecidableEq

/-- `calculateImageScaling(imageDimensions, pageDimensions)`. -/
def calculateImageScaling (imageDimensions pageDimensions : PageDimensions) : ImageScaling :=
  let scaleFactor := min (pageDimensions.width / imageDimensions.width)
    (pageDimensions.height / imageDimensions.height)
  let scaledWidth := imageDimensions.width * scaleFactor
  let scaledHeight := imageDimensions.height * scaleFactor
  { scaleFactor := scaleFactor
    width := scaledWidth
    height := scaledHeight
    x := (pageDimensions.width - scaledWidth) / 2
    y := (pageDimensions.height - scaledHeight) / 2 }

/-- The rectangle `page.drawImage` receives in `addImageToPage`. -/
structure DrawParams where
  x : ℚ
  y : ℚ
  width : ℚ
  height : ℚ
deriving DecidableEq

/-- `addImageToPage`: adds a page and draws the image at the rectangle
`calculateImageScaling` computes from the image and page dimensions. -/
def addImageToPage (imageDimensions pageDimensions : PageDimensions) : DrawParams :=
  let scaling := calculateImageScaling imageDimensions pageDimensions
  { x := scaling.x, y := scaling.y, width := scaling.width, height := scaling.height }

end PdfMergerService

namespace ImageCompressionService

/-- `CompressionOptions` (without the `onProgress` callback, whose
emissions the embedding returns explicitly). -/
structure CompressionOptions where
  maxSizeMB : Option ℚ
  maxWidthOrHeight : Option Nat
  useWebWorker : Option Bool
  fileType : Option String
  initialQuality : Option ℚ
deriving DecidableEq

/-- `DEFAULT_OPTIONS` of `ImageCompressionService`. -/
def DEFAULT_OPTIONS : CompressionOptions :=
  { maxSizeMB := some 0.5
    maxWidthOrHeight := some 1200
    useWebWorker := some true
    fileType := none
    initialQuality := some 0.6 }

/-- The object spread `{ ...DEFAULT_OPTIONS, ...options }`: a field
present in `options` wins, otherwise the default is kept. -/
def mergeOptions (options : CompressionOptions) : CompressionOptions :=
  { maxSizeMB := options.maxSizeMB <|> DEFAULT_OPTIONS.maxSizeMB
    maxWidthOrHeight := options.maxWidthOrHeight <|> DEFAULT_OPTIONS.maxWidthOrHeight
    useWebWorker := options.useWebWorker <|> DEFAULT_OPTIONS.useWebWorker
    fileType := options.fileType <|> DEFAULT_OPTIONS.fileType
    initialQuality := options.initialQuality <|> DEFAULT_OPTIONS.initialQuality }

/-- `CompressionResult` from `image-compression.service.ts`
(`compressionRatio` renamed to `compressionRatioVal`). -/
structure CompressionResult where
  originalSize : Nat
  compressedSize : Nat
  compressionRatioVal : ℚ
  compressedFile : File
deriving DecidableEq

/-- The process-lifetime compression cache (`Map<string,
CompressionResult>`), as an association list whose most recent binding
for a key wins. -/
def Cache : Type := List (String × CompressionResult)

/-- `getCacheKey(file)`. -/
def getCacheKey (file : File) : String :=
  file.name ++ "_" ++ toString file.size ++ "_" ++ toString file.lastModified

/-- The external `browser-image-compression` encoder: given the file
and the merged options it emits a sequence of progress values and then
either resolves with the re-encoded file or rejects with a message. -/
structure EncoderEnv where
  encode : File → CompressionOptions → List ℚ × Except String File

/-- Everything one `compressImage` call produces: the returned (or
thrown) outcome, the cache afterwards, the progress values forwarded
to the caller's `onProgress`, and how many times the external encoder
was invoked. -/
structure CompressCall where
  result : Except String CompressionResult
  cache : Cache
  progressReported : List ℚ
  encoderCalls : Nat

/-- `compressImage(file, options?)`, `image-compression.service.ts`
lines 48-123: cache lookup (a hit reports 100% progress and does no
work), the sub-500KB skip path (the original file is returned and
cached with an unchanged size and ratio 0), the encoder path, and the
rethrow on encoder failure (which caches nothing). -/
def compressImage (env : EncoderEnv) (cache : Cache) (file : File)
    (options : CompressionOptions) : CompressCall :=
  match List.lookup (getCacheKey file) cache with
  | some cached => { result := .ok cached, cache := cache, progressReported := [100], encoderCalls := 0 }
  | none =>
    if file.size < 500 * 1024 then
      { result := .ok ⟨file.size, file.size, 0, file⟩,
        cache := (getCacheKey file, ⟨file.size, file.size, 0, file⟩) :: cache,
        progressReported := [100], encoderCalls := 0 }
    else
      match env.encode file (mergeOptions options) with
      | (events, .ok compressedFile) =>
        { result := .ok ⟨file.size, compressedFile.size,
            ((file.size : ℚ) - compressedFile.size) / file.size, compressedFile⟩,
          cache := (getCacheKey file, ⟨file.size, compressedFile.size,
            ((file.size : ℚ) - compressedFile.size) / file.size, compressedFile⟩) :: cache,
          progressReported := events, encoderCalls := 1 }
      | (events, .error msg) =>
        { result := .error ("Erro ao comprimir imagem \"" ++ file.name ++ "\": " ++ msg),
          cache := cache, progressReported := events, encoderCalls := 1 }

/-- `isImageFile(file)` of the compression service. -/
def isImageFile (file : File) : Bool :=
  jsStartsWith file.type "image/"

end ImageCompressionService

namespace PdfManager

/-- The `ManagedFile.state` union type. -/
inductive FileState where
  | unprocessed
  | compressing
  | compressed
  | error
deriving DecidableEq

/-- `ManagedFile` from `file-manager.models.ts` (progress is a JS
number holding values like `20 + progress * 0.6`, embedded as ℚ). -/
structure ManagedFile where
  id : String
  file : File
  state : FileState
  compressedFile : Option File
  error : Option String
  progress : ℚ
deriving DecidableEq

/-- A `Partial<ManagedFile>` as passed to `updateFileState`: `none`
means the key is absent from the updates object. -/
structure FileUpdate where
  state : Option FileState := none
  compressedFile : Option File := none
  error : Option String := none
  progress : Option ℚ := none
deriving DecidableEq

/-- The object spread `{ ...f, ...updates }` restricted to the keys
`_compressFileInBackground` ever places in `updates`. -/
def applyUpdate (f : ManagedFile) (u : FileUpdate) : ManagedFile :=
  { f with
    state := u.state.getD f.state
    compressedFile := u.compressedFile <|> f.compressedFile
    error := u.error <|> f.error
    progress := u.progress.getD f.progress }

/-- `updateFileState(fileId, updates)`: replaces the collection with
one where exactly the entries bearing `fileId` are updated. -/
def updateFileState (current : List ManagedFile) (fileId : String) (updates : FileUpdate) :
    List ManagedFile :=
  current.map (fun f => if f.id = fileId then applyUpdate f updates else f)

/-- `removeFile(fileId)`: filters the entry out unconditionally. -/
def removeFile (current : List ManagedFile) (fileId : String) : List ManagedFile :=
  current.filter (fun f => f.id ≠ fileId)

/-- The `ManagedFile` record `addFiles` creates for one selected file. -/
def initialEntry (id : String) (file : File) : ManagedFile :=
  { id := id, file := file, state := .unprocessed, compressedFile := none,
    error := none, progress := 0 }

/-- `addFiles(files)`: appends the new `unprocessed` entries (ids are
supplied by `generateUniqueId`, abstracted as a parallel list). -/
def addFiles (current : List ManagedFile) (ids : List String) (files : List File) :
    List ManagedFile :=
  current ++ List.zipWith initialEntry ids files

/-- What one entry's background compression task observes from the
external compression service: the progress values its `onProgress`
callback receives, then either resolution with the compressed file or
rejection with a message. -/
inductive CompressionOutcome where
  | success (events : List ℚ) (compressedFile : File)
  | failure (events : List ℚ) (msg : String)
deriving DecidableEq

/-- `isImageFile(file)` of the manager. -/
def isImageFile (file : File) : Bool :=
  jsStartsWith file.type "image/" ||
    jsEndsWith (jsToLower file.name) ".png" ||
    jsEndsWith (jsToLower file.name) ".jpg" ||
    jsEndsWith (jsToLower file.name) ".jpeg"

/-- `isPdfFile(file)` of the manager. -/
def isPdfFile (file : File) : Bool :=
  file.type == "application/pdf" || jsEndsWith (jsToLower file.name) ".pdf"

/-- The sequence of `updateFileState` payloads that
`_compressFileInBackground` issues for one entry, in order
(`pdf-manager.service.ts` lines 78-131): `compressing`/20 first; a
non-image goes straight to `compressed`/100; an image forwards each
progress event into the [20, 80] window and then lands on its
terminal update. -/
def backgroundUpdates (isImage : Bool) (outcome : CompressionOutcome) : List FileUpdate :=
  { state := some .compressing, progress := some 20 } ::
    (if isImage then
      match outcome with
      | .success events compressedFile =>
          events.map (fun p => { progress := some (20 + p * 0.6) }) ++
            [{ state := some .compressed, compressedFile := some compressedFile,
               progress := some 100 }]
      | .failure events msg =>
          events.map (fun p => { progress := some (20 + p * 0.6) }) ++
            [{ state := some .error, error := some msg, progress := some 100 }]
     else
      [{ state := some .compressed, progress := some 100 }])

/-- The snapshots one entry passes through, starting from the record
`addFiles` created and applying the background task's updates in
order. -/
def entryTrace (id : String) (file : File) (isImage : Bool) (outcome : CompressionOutcome) :
    List ManagedFile :=
  (backgroundUpdates isImage outcome).scanl applyUpdate (initialEntry id file)

/-- The terminal state the background task reaches: `compressed` for
non-images and successful compressions, `error` for failed ones. -/
def terminalState (isImage : Bool) (outcome : CompressionOutcome) : FileState :=
  if isImage then
    match outcome with
    | .success _ _ => .compressed
    | .failure _ _ => .error
  else .compressed

/-- How many progress-only updates the task issues between entering
`compressing` and its terminal update. -/
def midUpdateCount (isImage : Bool) (outcome : CompressionOutcome) : Nat :=
  if isImage then
    match outcome with
    | .success events _ => events.length
    | .failure events _ => events.length
  else 0

/-- `managedFile.compressedFile || managedFile.file`: the file
selected for validation, size accounting and merge. -/
def selectedFile (mf : ManagedFile) : File :=
  mf.compressedFile.getD mf.file

def MAX_TOTAL_SIZE_BYTES : Nat := 7 * 1024 * 1024

/-- The errors `validateAndPrepareFiles` throws, carrying the data its
messages interpolate (`totalSizeExceeded` carries the actual total and
the allowed maximum; `passwordProtected` the listed file names). -/
inductive PrepareError where
  | noFiles
  | stillCompressing
  | invalidPdf (name : String) (validationErr : Option String)
  | passwordProtected (names : List String)
  | totalSizeExceeded (totalSize maxSize : Nat)
deriving DecidableEq

/-- The `for (const managedFile of managedFiles)` loop of
`validateAndPrepareFiles` (lines 178-196): accumulates processed
files, validation outcomes and password-protected names; an invalid
PDF throws immediately. -/
def validateLoop (env : PdfValidationService.PdfJsEnv) :
    List ManagedFile → List File → List PdfValidationService.PdfValidationResult →
      List String →
      Except PrepareError
        (List File × List PdfValidationService.PdfValidationResult × List String)
  | [], processedFiles, validations, passwordProtectedFiles =>
      .ok (processedFiles, validations, passwordProtectedFiles)
  | mf :: rest, processedFiles, validations, passwordProtectedFiles =>
    let fileToValidate := selectedFile mf
    if isPdfFile mf.file then
      let validation := PdfValidationService.validatePdf env fileToValidate
      if ¬validation.isValid then
        .error (.invalidPdf mf.file.name validation.error)
      else
        let passwordProtectedFiles' :=
          if validation.requiresPassword then passwordProtectedFiles ++ [mf.file.name]
          else passwordProtectedFiles
        validateLoop env rest (processedFiles ++ [fileToValidate])
          (validations ++ [validation]) passwordProtectedFiles'
    else
      validateLoop env rest (processedFiles ++ [fileToValidate]) validations
        passwordProtectedFiles

/-- `validateAndPrepareFiles(managedFiles)`, lines 155-221: empty
check, the still-compressing guard, per-entry validation, the
aggregate password gate, then the 7 MiB total-size budget over the
selected files. -/
def validateAndPrepareFiles (env : PdfValidationService.PdfJsEnv)
    (managedFiles : List ManagedFile) :
    Except PrepareError (List File × List PdfValidationService.PdfValidationResult) :=
  if managedFiles.length = 0 then .error .noFiles
  else if (managedFiles.filter (fun f => f.state = .compressing)).length > 0 then
    .error .stillCompressing
  else
    match validateLoop env managedFiles [] [] [] with
    | .error e => .error e
    | .ok (processedFiles, validations, passwordProtectedFiles) =>
      if passwordProtectedFiles.length > 0 then
        .error (.passwordProtected passwordProtectedFiles)
      else
        let total := processedFiles.foldl (fun sum file => sum + file.size) 0
        if total > MAX_TOTAL_SIZE_BYTES then
          .error (.totalSizeExceeded total MAX_TOTAL_SIZE_BYTES)
        else .ok (processedFiles, validations)

/-- Spec-side: the validation outcomes of the PDF-typed entries, in
entry order. -/
def pdfValidations (env : PdfValidationService.PdfJsEnv) (l : List ManagedFile) :
    List PdfValidationService.PdfValidationResult :=
  (l.filter (fun mf => isPdfFile mf.file)).map
    (fun mf => PdfValidationService.validatePdf env (selectedFile mf))

/-- Spec-side: the names of the PDF-typed entries whose selected file
validates as password-protected, in entry order. -/
def protectedNames (env : PdfValidationService.PdfJsEnv) (l : List ManagedFile) :
    List String :=
  ((l.filter (fun mf =>
      isPdfFile mf.file &&
        (PdfValidationService.validatePdf env (selectedFile mf)).requiresPassword)).map
    (fun mf => mf.file.name))

/-- Spec-side: the summed byte size of the selected files. -/
def totalSelectedSize (l : List ManagedFile) : Nat :=
  ((l.map selectedFile).map (fun f => f.size)).sum

end PdfManager

section Helpers

/-- The `reduce((sum, file) => sum + file.size, 0)` pattern equals the
sum of the sizes. -/
theorem foldl_size_eq_sum (fs : List File) (a : Nat) :
    fs.foldl (fun sum file => sum + file.size) a = a + (fs.map (fun f => f.size)).sum := by
  induction fs generalizing a with
  | nil => simp
  | cons f fs ih => simp [List.foldl_cons, ih (a + f.size), Nat.add_assoc]

/-- The last snapshot of a `scanl` is the `foldl` of the whole list. -/
theorem scanl_getLast {α β : Type} (f : β → α → β) (b : β) (l : List α) :
    (l.scanl f b).getLast? = some (l.foldl f b) := by
  induction l generalizing b with
  | nil => simp [List.scanl]
  | cons u us ih =>
    cases us with
    | nil => simp [List.scanl, List.getLast?_cons_cons, ih]
    | cons v vs => simp only [List.scanl, List.getLast?_cons_cons, List.foldl_cons]; exact ih (f b u)

end Helpers

/-- CLAIM C9: an update addressed to an id absent from the managed
collection leaves the collection exactly unchanged, and in particular
an update arriving after `removeFile` deleted that id is a no-op that
neither throws nor re-inserts the removed entry. -/
theorem C9_absent_id_update_noop (files : List PdfManager.ManagedFile) (fileId : String)
    (updates : PdfManager.FileUpdate)
    (habsent : ∀ mf ∈ files, mf.id ≠ fileId) :
    PdfManager.updateFileState files fileId updates = files ∧
      PdfManager.updateFileState (PdfManager.removeFile files fileId) fileId updates =
        PdfManager.removeFile files fileId := by
  constructor
  · unfold PdfManager.updateFileState
    apply List.map_congr_left ?_ |>.trans (List.map_id _)
    intro mf hmf
    simp [habsent mf hmf]
  · unfold PdfManager.updateFileState PdfManager.removeFile
    apply List.map_congr_left ?_ |>.trans (List.map_id _)
    intro mf hmf
    have : mf.id ≠ fileId := by
      have := List.of_mem_filter hmf
      simpa using this
    simp [this]

/-- Witness for C9 at a concrete collection. -/
theorem C9_witness :
    PdfManager.updateFileState
        [PdfManager.initialEntry "a1" ⟨"x.pdf", "application/pdf", 10, 0, []⟩] "zz"
        { progress := some 50 } =
      [PdfManager.initialEntry "a1" ⟨"x.pdf", "application/pdf", 10, 0, []⟩] :=
  (C9_absent_id_update_noop
    [PdfManager.initialEntry "a1" ⟨"x.pdf", "application/pdf", 10, 0, []⟩] "zz"
    { progress := some 50 } (by decide)).1

/-- CLAIM C8, counterexample: the scaling carries no margin.  For a
595×842 image on a 595×842 page the drawn width equals the full page
width, so no positive fixed margin can be subtracted from the page
and still contain the drawn image. -/
theorem C8_counterexample :
    ¬ ∃ m : ℚ, 0 < m ∧
      (PdfMergerService.calculateImageScaling ⟨595, 842⟩ ⟨595, 842⟩).width ≤ 595 - m := by
  rintro ⟨m, hm, hle⟩
  have hw : (PdfMergerService.calculateImageScaling ⟨595, 842⟩ ⟨595, 842⟩).width = 595 := by
    norm_num [PdfMergerService.calculateImageScaling]
  rw [hw] at hle
  linarith

/-- CLAIM C8 (amended: the image is drawn centered and uniformly
scaled with `scale = min(pageWidth/imgWidth, pageHeight/imgHeight)` —
the bounds are the full page dimensions, no margin is subtracted — so
it fits within the page, preserves aspect ratio and is centered). -/
theorem C8_image_scaling (img page : PdfMergerService.PageDimensions)
    (hiw : 0 < img.width) (hih : 0 < img.height) :
    (PdfMergerService.calculateImageScaling img page).scaleFactor =
        min (page.width / img.width) (page.height / img.height) ∧
      (PdfMergerService.calculateImageScaling img page).width =
        img.width * (PdfMergerService.calculateImageScaling img page).scaleFactor ∧
      (PdfMergerService.calculateImageScaling img page).height =
        img.height * (PdfMergerService.calculateImageScaling img page).scaleFactor ∧
      (PdfMergerService.calculateImageScaling img page).x =
        (page.width - (PdfMergerService.calculateImageScaling img page).width) / 2 ∧
      (PdfMergerService.calculateImageScaling img page).y =
        (page.height - (PdfMergerService.calculateImageScaling img page).height) / 2 ∧
      (PdfMergerService.calculateImageScaling img page).width ≤ page.width ∧
      (PdfMergerService.calculateImageScaling img page).height ≤ page.height ∧
      (PdfMergerService.calculateImageScaling img page).width * img.height =
        (PdfMergerService.calculateImageScaling img page).height * img.width ∧
      PdfMergerService.addImageToPage img page =
        { x := (PdfMergerService.calculateImageScaling img page).x,
          y := (PdfMergerService.calculateImageScaling img page).y,
          width := (PdfMergerService.calculateImageScaling img page).width,
          height := (PdfMergerService.calculateImageScaling img page).height } := by
  refine ⟨rfl, rfl, rfl, rfl, rfl, ?_, ?_, ?_, rfl⟩
  · show img.width * min (page.width / img.width) (page.height / img.height) ≤ page.width
    calc img.width * min (page.width / img.width) (page.height / img.height)
        ≤ img.width * (page.width / img.width) := by
          exact mul_le_mul_of_nonneg_left (min_le_left _ _) (le_of_lt hiw)
      _ = page.width := by field_simp
  · show img.height * min (page.width / img.width) (page.height / img.height) ≤ page.height
    calc img.height * min (page.width / img.width) (page.height / img.height)
        ≤ img.height * (page.height / img.height) := by
          exact mul_le_mul_of_nonneg_left (min_le_right _ _) (le_of_lt hih)
      _ = page.height := by field_simp
  · show img.width * _ * img.height = img.height * _ * img.width
    ring

/-- Witness for C8 at the 2000×1500 image of the spec's scenario on a
595×842 page. -/
theorem C8_witness :
    (PdfMergerService.calculateImageScaling ⟨2000, 1500⟩ ⟨595, 842⟩).width ≤ 595 ∧
      (PdfMergerService.calculateImageScaling ⟨2000, 1500⟩ ⟨595, 842⟩).width * 1500 =
        (PdfMergerService.calculateImageScaling ⟨2000, 1500⟩ ⟨595, 842⟩).height * 2000 :=
  ⟨(C8_image_scaling ⟨2000, 1500⟩ ⟨595, 842⟩ (by norm_num) (by norm_num)).2.2.2.2.2.1,
   (C8_image_scaling ⟨2000, 1500⟩ ⟨595, 842⟩ (by norm_num) (by norm_num)).2.2.2.2.2.2.2.1⟩

/-- CLAIM C10: `mergeFilesToPdf` re-enforces the intake checks itself,
for every codec environment (so before any output document is built):
an empty list is rejected, and a list whose summed sizes exceed the
7 MiB budget is rejected with an error naming the actual total and the
allowed maximum. -/
theorem C10_merger_reenforces_checks (env : PdfMergerService.MergeEnv)
    (files : List File)
    (hover : PdfMergerService.totalSize files > PdfMergerService.MAX_TOTAL_SIZE_BYTES) :
    PdfMergerService.mergeFilesToPdf env [] = .error .noFiles ∧
      PdfMergerService.mergeFilesToPdf env files =
        .error (.totalSizeExceeded (PdfMergerService.totalSize files)
          PdfMergerService.MAX_TOTAL_SIZE_BYTES) := by
  constructor
  · rfl
  · have hne : files.length ≠ 0 := by
      intro h
      rw [List.length_eq_zero] at h
      subst h
      simp [PdfMergerService.totalSize, PdfMergerService.MAX_TOTAL_SIZE_BYTES] at hover
    unfold PdfMergerService.mergeFilesToPdf PdfMergerService.validateFiles
      PdfMergerService.validateTotalSize
    simp only [hne, if_false, hover, if_true, gt_iff_lt]
    rfl

/-- Witness for C10 at a single 7 MiB + 1 byte file. -/
theorem C10_witness :
    PdfMergerService.mergeFilesToPdf ⟨fun _ => .ok [], fun _ => .ok 0, fun _ => .ok 0⟩
        [⟨"big.pdf", "application/pdf", 7 * 1024 * 1024 + 1, 0, []⟩] =
      .error (.totalSizeExceeded (7 * 1024 * 1024 + 1) (7 * 1024 * 1024)) :=
  ((C10_merger_reenforces_checks ⟨fun _ => .ok [], fun _ => .ok 0, fun _ => .ok 0⟩
      [⟨"big.pdf", "application/pdf", 7 * 1024 * 1024 + 1, 0, []⟩] (by decide)).2).trans
    (by rfl)

/-- One loop step of `mergeFilesToPdf`: a supported file on which the
codec succeeds appends exactly its expected pages. -/
theorem processFile_ok (env : PdfMergerService.MergeEnv) (doc : List PdfMergerService.Page)
    (f : File)
    (h : (f.type = PdfMergerService.SUPPORTED_PDF ∧ ∃ ps, env.loadPdf f = .ok ps) ∨
      (f.type = PdfMergerService.SUPPORTED_JPEG ∧ ∃ i, env.embedJpg f = .ok i) ∨
      (f.type = PdfMergerService.SUPPORTED_PNG ∧ ∃ i, env.embedPng f = .ok i)) :
    PdfMergerService.processFile env doc f = .ok (doc ++ PdfMergerService.expectedPages env f) := by
  rcases h with ⟨ht, ps, hok⟩ | ⟨ht, i, hok⟩ | ⟨ht, i, hok⟩ <;>
    simp [PdfMergerService.processFile, PdfMergerService.expectedPages,
      PdfMergerService.mergePdfFile, PdfMergerService.mergeImageFile,
      PdfMergerService.embedImage, PdfMergerService.isImageFile, ht, hok, Except.map,
      PdfMergerService.SUPPORTED_PDF, PdfMergerService.SUPPORTED_JPEG,
      PdfMergerService.SUPPORTED_PNG]

/-- The `for` loop of `mergeFilesToPdf` appends, in input order, each
file's expected pages. -/
theorem processAll_ok (env : PdfMergerService.MergeEnv) (files : List File)
    (h : ∀ f ∈ files,
      (f.type = PdfMergerService.SUPPORTED_PDF ∧ ∃ ps, env.loadPdf f = .ok ps) ∨
      (f.type = PdfMergerService.SUPPORTED_JPEG ∧ ∃ i, env.embedJpg f = .ok i) ∨
      (f.type = PdfMergerService.SUPPORTED_PNG ∧ ∃ i, env.embedPng f = .ok i)) :
    ∀ doc, PdfMergerService.processAll env doc files =
      .ok (doc ++ (files.map (PdfMergerService.expectedPages env)).flatten) := by
  induction files with
  | nil => intro doc; simp [PdfMergerService.processAll]
  | cons f rest ih =>
    intro doc
    have hf := h f (List.mem_cons_self f rest)
    have hrest : ∀ g ∈ rest, _ := fun g hg => h g (List.mem_cons_of_mem f hg)
    rw [PdfMergerService.processAll, processFile_ok env doc f hf]
    show PdfMergerService.processAll env (doc ++ PdfMergerService.expectedPages env f) rest = _
    rw [ih hrest (doc ++ PdfMergerService.expectedPages env f)]
    simp

/-- CLAIM C1: for a non-empty, within-budget input list whose declared
types are all `application/pdf`, `image/jpeg` or `image/png`, and on
which the codec succeeds, the output's page sequence is the
concatenation, in input order, of each PDF's pages (in original
order) and one new image page per JPEG/PNG. -/
theorem C1_merge_order_preservation (env : PdfMergerService.MergeEnv) (files : List File)
    (hne : files ≠ [])
    (hsize : PdfMergerService.totalSize files ≤ PdfMergerService.MAX_TOTAL_SIZE_BYTES)
    (h : ∀ f ∈ files,
      (f.type = PdfMergerService.SUPPORTED_PDF ∧ ∃ ps, env.loadPdf f = .ok ps) ∨
      (f.type = PdfMergerService.SUPPORTED_JPEG ∧ ∃ i, env.embedJpg f = .ok i) ∨
      (f.type = PdfMergerService.SUPPORTED_PNG ∧ ∃ i, env.embedPng f = .ok i)) :
    PdfMergerService.mergeFilesToPdf env files =
      .ok ((files.map (PdfMergerService.expectedPages env)).flatten) := by
  have hlen : files.length ≠ 0 := fun hl => hne (List.length_eq_zero.mp hl)
  have hnover : ¬ PdfMergerService.totalSize files > PdfMergerService.MAX_TOTAL_SIZE_BYTES :=
    not_lt.mpr hsize
  unfold PdfMergerService.mergeFilesToPdf PdfMergerService.validateFiles
    PdfMergerService.validateTotalSize
  rw [if_neg hlen, if_neg hnover]
  show PdfMergerService.processAll env [] files = _
  rw [processAll_ok env files h []]
  simp

/-- Witness for C1: a two-page PDF followed by a JPEG yields the
PDF's two pages then the image page. -/
theorem C1_witness :
    PdfMergerService.mergeFilesToPdf ⟨fun _ => .ok [10, 11], fun _ => .ok 7, fun _ => .ok 8⟩
        [⟨"a.pdf", "application/pdf", 100, 0, []⟩, ⟨"b.jpg", "image/jpeg", 50, 0, []⟩] =
      .ok [.fromPdf 10, .fromPdf 11, .fromImage 7] :=
  (C1_merge_order_preservation ⟨fun _ => .ok [10, 11], fun _ => .ok 7, fun _ => .ok 8⟩
      [⟨"a.pdf", "application/pdf", 100, 0, []⟩, ⟨"b.jpg", "image/jpeg", 50, 0, []⟩]
      (by decide) (by decide)
      (by
        intro f hf
        simp only [List.mem_cons, List.not_mem_nil, or_false] at hf
        rcases hf with rfl | rfl
        · exact .inl ⟨rfl, ⟨[10, 11], rfl⟩⟩
        · exact .inr (.inl ⟨rfl, ⟨7, rfl⟩⟩))).trans (by rfl)

/-- Over a run of progress-only updates followed by one
state-carrying terminal update, the state snapshots are a constant
block followed by the terminal state. -/
theorem scanl_mid_states (events : List ℚ) (fin : PdfManager.FileUpdate)
    (t : PdfManager.FileState) (ht : fin.state = some t) :
    ∀ e : PdfManager.ManagedFile,
      (((events.map (fun p =>
            ({ progress := some (20 + p * 0.6) } : PdfManager.FileUpdate))) ++ [fin]).scanl
          PdfManager.applyUpdate e).map (fun m => m.state) =
        List.replicate (events.length + 1) e.state ++ [t] := by
  induction events with
  | nil =>
    intro e
    simp [List.scanl, PdfManager.applyUpdate, ht]
  | cons p ps ih =>
    intro e
    rw [List.map_cons, List.cons_append, List.scanl_cons, List.singleton_append, List.map_cons]
    rw [ih (PdfManager.applyUpdate e { progress := some (20 + p * 0.6) })]
    simp [PdfManager.applyUpdate, List.replicate_succ]

/-- CLAIM C4: each entry starts `unprocessed` at progress 0, its state
snapshots form exactly one `compressing` block entered with progress
20, ending in exactly one terminal state (`compressed` on success or
for non-images, `error` on compression failure) at progress 100 — a
subsequence of unprocessed, compressing, (compressed | error) with no
revisits. -/
theorem C4_entry_state_machine (id : String) (file : File) (isImage : Bool)
    (outcome : PdfManager.CompressionOutcome) :
    (PdfManager.entryTrace id file isImage outcome).map (fun m => m.state) =
        .unprocessed ::
          (List.replicate (PdfManager.midUpdateCount isImage outcome + 1) .compressing ++
            [PdfManager.terminalState isImage outcome]) ∧
      (PdfManager.entryTrace id file isImage outcome).head? =
        some (PdfManager.initialEntry id file) ∧
      (PdfManager.initialEntry id file).state = .unprocessed ∧
      (PdfManager.initialEntry id file).progress = 0 ∧
      (PdfManager.entryTrace id file isImage outcome)[1]? =
        some { PdfManager.initialEntry id file with state := .compressing, progress := 20 } ∧
      ((PdfManager.entryTrace id file isImage outcome).getLast?.map
          (fun m => (m.state, m.progress))) =
        some (PdfManager.terminalState isImage outcome, 100) := by
  refine ⟨?_, ?_, rfl, rfl, ?_, ?_⟩
  · cases isImage with
    | false =>
      simp [PdfManager.entryTrace, PdfManager.backgroundUpdates, List.scanl,
        PdfManager.applyUpdate, PdfManager.midUpdateCount, PdfManager.terminalState,
        PdfManager.initialEntry, List.replicate]
    | true =>
      cases outcome with
      | success events cf =>
        show (((_ :: (events.map _ ++ [_])).scanl PdfManager.applyUpdate _).map _) = _
        rw [List.scanl_cons, List.singleton_append, List.map_cons]
        rw [scanl_mid_states events _ PdfManager.FileState.compressed rfl]
        simp [PdfManager.applyUpdate, PdfManager.midUpdateCount, PdfManager.terminalState,
          PdfManager.initialEntry]
      | failure events msg =>
        show (((_ :: (events.map _ ++ [_])).scanl PdfManager.applyUpdate _).map _) = _
        rw [List.scanl_cons, List.singleton_append, List.map_cons]
        rw [scanl_mid_states events _ PdfManager.FileState.error rfl]
        simp [PdfManager.applyUpdate, PdfManager.midUpdateCount, PdfManager.terminalState,
          PdfManager.initialEntry]
  · cases isImage <;> cases outcome <;> rfl
  · cases isImage with
    | false =>
      simp [PdfManager.entryTrace, PdfManager.backgroundUpdates, List.scanl,
        PdfManager.applyUpdate, PdfManager.initialEntry]
    | true =>
      cases outcome with
      | success events cf =>
        cases events <;>
          simp [PdfManager.entryTrace, PdfManager.backgroundUpdates, List.scanl,
            PdfManager.applyUpdate, PdfManager.initialEntry]
      | failure events msg =>
        cases events <;>
          simp [PdfManager.entryTrace, PdfManager.backgroundUpdates, List.scanl,
            PdfManager.applyUpdate, PdfManager.initialEntry]
  · cases isImage with
    | false =>
      simp [PdfManager.entryTrace, PdfManager.backgroundUpdates, List.scanl,
        PdfManager.applyUpdate, PdfManager.terminalState, PdfManager.initialEntry]
    | true =>
      cases outcome with
      | success events cf =>
        rw [PdfManager.entryTrace, scanl_getLast]
        show some ((((PdfManager.backgroundUpdates true
            (PdfManager.CompressionOutcome.success events cf)).foldl PdfManager.applyUpdate
              (PdfManager.initialEntry id file)).state,
          ((PdfManager.backgroundUpdates true
            (PdfManager.CompressionOutcome.success events cf)).foldl PdfManager.applyUpdate
              (PdfManager.initialEntry id file)).progress)) = _
        rw [PdfManager.backgroundUpdates]
        simp only [List.foldl_cons, if_pos, List.foldl_append, List.foldl]
        simp [PdfManager.applyUpdate, PdfManager.terminalState]
      | failure events msg =>
        rw [PdfManager.entryTrace, scanl_getLast]
        show some ((((PdfManager.backgroundUpdates true
            (PdfManager.CompressionOutcome.failure events msg)).foldl PdfManager.applyUpdate
              (PdfManager.initialEntry id file)).state,
          ((PdfManager.backgroundUpdates true
            (PdfManager.CompressionOutcome.failure events msg)).foldl PdfManager.applyUpdate
              (PdfManager.initialEntry id file)).progress)) = _
        rw [PdfManager.backgroundUpdates]
        simp only [List.foldl_cons, if_pos, List.foldl_append, List.foldl]
        simp [PdfManager.applyUpdate, PdfManager.terminalState]

/-- After a `compressImage` call whose result is an outcome, the call
key maps to that outcome in the resulting cache. -/
theorem compressImage_cache_lookup (env : ImageCompressionService.EncoderEnv)
    (cache : ImageCompressionService.Cache) (file : File)
    (opts : ImageCompressionService.CompressionOptions)
    (r : ImageCompressionService.CompressionResult)
    (hok : (ImageCompressionService.compressImage env cache file opts).result = .ok r) :
    List.lookup (ImageCompressionService.getCacheKey file)
      (ImageCompressionService.compressImage env cache file opts).cache = some r := by
  unfold ImageCompressionService.compressImage at hok ⊢
  split at hok
  next cached heq =>
    simp only [Except.ok.injEq] at hok
    rw [heq, hok]
  next heq =>
    split at hok
    next hsmall =>
      simp only [Except.ok.injEq] at hok
      rw [if_pos hsmall]
      simp [List.lookup, hok]
    next hsmall =>
      rw [if_neg hsmall]
      split at hok
      next events cf henc =>
        simp only [Except.ok.injEq] at hok
        simp [List.lookup, hok]
      next events msg henc =>
        simp at hok

/-- CLAIM C5: (skip) on a cache miss, a file under 500 KB is returned
as-is — compressed size equals original size, ratio 0, the input file
itself as `compressedFile` — and cached; (cache idempotence) whenever
a call returned an outcome, a later call with the same
`(name, size, lastModified)` key returns that identical cached
outcome, reports 100% progress immediately and never invokes the
encoder. -/
theorem C5_small_file_skip_and_cache (env : ImageCompressionService.EncoderEnv)
    (cache : ImageCompressionService.Cache) (file g : File)
    (opts opts2 : ImageCompressionService.CompressionOptions)
    (r : ImageCompressionService.CompressionResult) :
    (List.lookup (ImageCompressionService.getCacheKey file) cache = none →
      file.size < 500 * 1024 →
      ImageCompressionService.compressImage env cache file opts =
        ⟨.ok ⟨file.size, file.size, 0, file⟩,
          (ImageCompressionService.getCacheKey file, ⟨file.size, file.size, 0, file⟩) :: cache,
          [100], 0⟩) ∧
    ((ImageCompressionService.compressImage env cache file opts).result = .ok r →
      ImageCompressionService.getCacheKey g = ImageCompressionService.getCacheKey file →
      ImageCompressionService.compressImage env
          (ImageCompressionService.compressImage env cache file opts).cache g opts2 =
        ⟨.ok r, (ImageCompressionService.compressImage env cache file opts).cache,
          [100], 0⟩) := by
  constructor
  · intro hmiss hsmall
    unfold ImageCompressionService.compressImage
    rw [hmiss]
    rw [if_pos hsmall]
  · intro hok hkey
    have hl := compressImage_cache_lookup env cache file opts r hok
    generalize hC : ImageCompressionService.compressImage env cache file opts = C at hl ⊢
    unfold ImageCompressionService.compressImage
    rw [hkey, hl]

/-- Witness for C5: a 1000-byte file on the empty cache takes the skip
path, and the immediate second call is a cache hit returning the same
outcome. -/
theorem C5_witness :
    (ImageCompressionService.compressImage ⟨fun f _ => ([], .ok f)⟩ []
        ⟨"s.png", "image/png", 1000, 3, []⟩ ⟨none, none, none, none, none⟩ =
      ⟨.ok ⟨1000, 1000, 0, ⟨"s.png", "image/png", 1000, 3, []⟩⟩,
        [("s.png_1000_3", ⟨1000, 1000, 0, ⟨"s.png", "image/png", 1000, 3, []⟩⟩)],
        [100], 0⟩) ∧
    ImageCompressionService.compressImage ⟨fun f _ => ([], .ok f)⟩
        (ImageCompressionService.compressImage ⟨fun f _ => ([], .ok f)⟩ []
          ⟨"s.png", "image/png", 1000, 3, []⟩ ⟨none, none, none, none, none⟩).cache
        ⟨"s.png", "image/png", 1000, 3, []⟩ ⟨none, none, none, none, none⟩ =
      ⟨.ok ⟨1000, 1000, 0, ⟨"s.png", "image/png", 1000, 3, []⟩⟩,
        (ImageCompressionService.compressImage ⟨fun f _ => ([], .ok f)⟩ []
          ⟨"s.png", "image/png", 1000, 3, []⟩ ⟨none, none, none, none, none⟩).cache,
        [100], 0⟩ :=
  ⟨((C5_small_file_skip_and_cache ⟨fun f _ => ([], .ok f)⟩ []
        ⟨"s.png", "image/png", 1000, 3, []⟩ ⟨"s.png", "image/png", 1000, 3, []⟩
        ⟨none, none, none, none, none⟩ ⟨none, none, none, none, none⟩
        ⟨1000, 1000, 0, ⟨"s.png", "image/png", 1000, 3, []⟩⟩).1 rfl (by decide)).trans
      (by rfl),
    (C5_small_file_skip_and_cache ⟨fun f _ => ([], .ok f)⟩ []
        ⟨"s.png", "image/png", 1000, 3, []⟩ ⟨"s.png", "image/png", 1000, 3, []⟩
        ⟨none, none, none, none, none⟩ ⟨none, none, none, none, none⟩
        ⟨1000, 1000, 0, ⟨"s.png", "image/png", 1000, 3, []⟩⟩).2 (by rfl) rfl⟩

/-- When every PDF-typed entry validates as valid, the validation loop
completes, selecting `compressedFile ?? file` per entry in order,
accumulating the PDF validations and the password-protected names. -/
theorem validateLoop_ok (env : PdfValidationService.PdfJsEnv) (l : List PdfManager.ManagedFile)
    (h : ∀ mf ∈ l, PdfManager.isPdfFile mf.file = true →
      (PdfValidationService.validatePdf env (PdfManager.selectedFile mf)).isValid = true) :
    ∀ fs vs pw, PdfManager.validateLoop env l fs vs pw =
      .ok (fs ++ l.map PdfManager.selectedFile, vs ++ PdfManager.pdfValidations env l,
        pw ++ PdfManager.protectedNames env l) := by
  induction l with
  | nil =>
    intro fs vs pw
    simp [PdfManager.validateLoop, PdfManager.pdfValidations, PdfManager.protectedNames]
  | cons mf rest ih =>
    intro fs vs pw
    have hmf := h mf (List.mem_cons_self mf rest)
    have hrest : ∀ g ∈ rest, _ := fun g hg => h g (List.mem_cons_of_mem mf hg)
    by_cases hpdf : PdfManager.isPdfFile mf.file = true
    · rw [PdfManager.validateLoop, if_pos hpdf, if_neg (by simp [hmf hpdf])]
      rw [ih hrest]
      by_cases hreq :
        (PdfValidationService.validatePdf env (PdfManager.selectedFile mf)).requiresPassword = true
      · rw [if_pos hreq]
        simp [PdfManager.pdfValidations, PdfManager.protectedNames, hpdf, hreq,
          List.filter_cons]
      · rw [if_neg hreq]
        simp only [Bool.not_eq_true] at hreq
        simp [PdfManager.pdfValidations, PdfManager.protectedNames, hpdf, hreq,
          List.filter_cons]
    · rw [PdfManager.validateLoop, if_neg hpdf]
      rw [ih hrest]
      simp only [Bool.not_eq_true] at hpdf
      simp [PdfManager.pdfValidations, PdfManager.protectedNames, hpdf, List.filter_cons]

/-- CLAIM C2: with no entry still compressing and every PDF-typed
entry valid and unprotected, `validateAndPrepareFiles` succeeds when
the summed size of the selected files is exactly `7*1024*1024` bytes
and fails when it exceeds it, with an error carrying both the actual
total and the allowed maximum. -/
theorem C2_size_budget_boundary (env : PdfValidationService.PdfJsEnv)
    (l : List PdfManager.ManagedFile)
    (hcomp : ∀ mf ∈ l, mf.state ≠ PdfManager.FileState.compressing)
    (hvalid : ∀ mf ∈ l, PdfManager.isPdfFile mf.file = true →
      (PdfValidationService.validatePdf env (PdfManager.selectedFile mf)).isValid = true ∧
      (PdfValidationService.validatePdf env (PdfManager.selectedFile mf)).requiresPassword
        = false) :
    (PdfManager.totalSelectedSize l = 7 * 1024 * 1024 →
      PdfManager.validateAndPrepareFiles env l =
        .ok (l.map PdfManager.selectedFile, PdfManager.pdfValidations env l)) ∧
    (PdfManager.totalSelectedSize l > 7 * 1024 * 1024 →
      PdfManager.validateAndPrepareFiles env l =
        .error (.totalSizeExceeded (PdfManager.totalSelectedSize l) (7 * 1024 * 1024))) := by
  have hpwnil : PdfManager.protectedNames env l = [] := by
    unfold PdfManager.protectedNames
    rw [List.filter_eq_nil_iff.mpr ?_, List.map_nil]
    intro mf hmf
    by_cases hpdf : PdfManager.isPdfFile mf.file = true
    · simp [hpdf, (hvalid mf hmf hpdf).2]
    · simp only [Bool.not_eq_true] at hpdf
      simp [hpdf]
  have hmain : ∀ hne : l.length ≠ 0,
      PdfManager.validateAndPrepareFiles env l =
        (if PdfManager.totalSelectedSize l > PdfManager.MAX_TOTAL_SIZE_BYTES then
          .error (.totalSizeExceeded (PdfManager.totalSelectedSize l)
            PdfManager.MAX_TOTAL_SIZE_BYTES)
        else .ok (l.map PdfManager.selectedFile, PdfManager.pdfValidations env l)) := by
    intro hne
    unfold PdfManager.validateAndPrepareFiles
    rw [if_neg hne]
    have hfilter : (l.filter (fun f => f.state = PdfManager.FileState.compressing)) = [] :=
      List.filter_eq_nil_iff.mpr (fun mf hmf => by simp [hcomp mf hmf])
    rw [hfilter]
    simp only [List.length_nil, gt_iff_lt, lt_self_iff_false, if_false]
    rw [validateLoop_ok env l (fun mf hmf hpdf => (hvalid mf hmf hpdf).1) [] [] []]
    simp only [List.nil_append, hpwnil, List.length_nil, lt_self_iff_false, if_false]
    rw [foldl_size_eq_sum]
    simp only [Nat.zero_add]
    have : ((l.map PdfManager.selectedFile).map (fun f => f.size)).sum =
        PdfManager.totalSelectedSize l := rfl
    rw [this]
  constructor
  · intro ht
    have hne : l.length ≠ 0 := by
      intro hlen
      rw [List.length_eq_zero] at hlen
      subst hlen
      simp [PdfManager.totalSelectedSize] at ht
    rw [hmain hne, if_neg (by simp [ht, PdfManager.MAX_TOTAL_SIZE_BYTES])]
  · intro ht
    have hne : l.length ≠ 0 := by
      intro hlen
      rw [List.length_eq_zero] at hlen
      subst hlen
      simp [PdfManager.totalSelectedSize] at ht
    rw [hmain hne, if_pos (by simpa [PdfManager.MAX_TOTAL_SIZE_BYTES] using ht)]
    rfl

/-- Witness for C2: a single compressed 7 MiB file passes; a single
7 MiB + 1 byte file fails with the total and the maximum named. -/
theorem C2_witness :
    PdfManager.validateAndPrepareFiles ⟨fun _ => .ok 1⟩
        [⟨"i1", ⟨"a.jpg", "image/jpeg", 7 * 1024 * 1024, 0, []⟩,
          PdfManager.FileState.compressed, none, none, 100⟩] =
      .ok ([⟨"a.jpg", "image/jpeg", 7 * 1024 * 1024, 0, []⟩], []) ∧
    PdfManager.validateAndPrepareFiles ⟨fun _ => .ok 1⟩
        [⟨"i1", ⟨"a.jpg", "image/jpeg", 7 * 1024 * 1024 + 1, 0, []⟩,
          PdfManager.FileState.compressed, none, none, 100⟩] =
      .error (.totalSizeExceeded (7 * 1024 * 1024 + 1) (7 * 1024 * 1024)) :=
  ⟨((C2_size_budget_boundary ⟨fun _ => .ok 1⟩
      [⟨"i1", ⟨"a.jpg", "image/jpeg", 7 * 1024 * 1024, 0, []⟩,
        PdfManager.FileState.compressed, none, none, 100⟩]
      (by decide) (by decide)).1 (by decide)).trans (by rfl),
   ((C2_size_budget_boundary ⟨fun _ => .ok 1⟩
      [⟨"i1", ⟨"a.jpg", "image/jpeg", 7 * 1024 * 1024 + 1, 0, []⟩,
        PdfManager.FileState.compressed, none, none, 100⟩]
      (by decide) (by decide)).2 (by decide)).trans (by rfl)⟩

/-- CLAIM C3: with no entry still compressing and every validated PDF
entry valid, if at least one PDF-typed entry validates as
password-protected then `validateAndPrepareFiles` throws one aggregate
error naming exactly the password-protected files (in entry order, so
every such file is named), and returns no prepared file list — the
call never reaches the merge step. -/
theorem C3_password_gate (env : PdfValidationService.PdfJsEnv)
    (l : List PdfManager.ManagedFile)
    (hcomp : ∀ mf ∈ l, mf.state ≠ PdfManager.FileState.compressing)
    (hvalid : ∀ mf ∈ l, PdfManager.isPdfFile mf.file = true →
      (PdfValidationService.validatePdf env (PdfManager.selectedFile mf)).isValid = true)
    (hpw : ∃ mf ∈ l, PdfManager.isPdfFile mf.file = true ∧
      (PdfValidationService.validatePdf env (PdfManager.selectedFile mf)).requiresPassword
        = true) :
    PdfManager.validateAndPrepareFiles env l =
        .error (.passwordProtected (PdfManager.protectedNames env l)) ∧
      PdfManager.protectedNames env l ≠ [] := by
  obtain ⟨mfw, hmfw, hpdfw, hreqw⟩ := hpw
  have hne : l.length ≠ 0 := by
    intro hlen
    rw [List.length_eq_zero] at hlen
    subst hlen
    exact absurd hmfw (List.not_mem_nil mfw)
  have hpwne : PdfManager.protectedNames env l ≠ [] := by
    unfold PdfManager.protectedNames
    intro hnil
    rw [List.map_eq_nil_iff] at hnil
    have : mfw ∈ l.filter (fun mf => PdfManager.isPdfFile mf.file &&
        (PdfValidationService.validatePdf env (PdfManager.selectedFile mf)).requiresPassword) :=
      List.mem_filter.mpr ⟨hmfw, by simp [hpdfw, hreqw]⟩
    rw [hnil] at this
    exact absurd this (List.not_mem_nil mfw)
  refine ⟨?_, hpwne⟩
  unfold PdfManager.validateAndPrepareFiles
  rw [if_neg hne]
  have hfilter : (l.filter (fun f => f.state = PdfManager.FileState.compressing)) = [] :=
    List.filter_eq_nil_iff.mpr (fun mf hmf => by simp [hcomp mf hmf])
  rw [hfilter]
  simp only [List.length_nil, gt_iff_lt, lt_self_iff_false, if_false]
  rw [validateLoop_ok env l hvalid [] [] []]
  simp only [List.nil_append]
  rw [if_pos (by
    cases hp : PdfManager.protectedNames env l with
    | nil => exact absurd hp hpwne
    | cons a as => simp)]

/-- Witness for C3: a clean PDF followed by a password-protected PDF
(whose payload carries `/Encrypt` and whose trial load rejects with a
password message) aborts with the aggregate error naming exactly the
protected file. -/
theorem C3_witness :
    PdfManager.validateAndPrepareFiles ⟨fun _ => .error "password needed"⟩
        [⟨"i1", ⟨"a.pdf", "application/pdf", 9, 0, [37, 80, 68, 70, 45]⟩,
          PdfManager.FileState.compressed, none, none, 100⟩,
         ⟨"i2", ⟨"b.pdf", "application/pdf", 9, 0,
            [37, 80, 68, 70, 45, 47, 69, 110, 99, 114, 121, 112, 116]⟩,
          PdfManager.FileState.compressed, none, none, 100⟩] =
      .error (.passwordProtected ["b.pdf"]) :=
  ((C3_password_gate ⟨fun _ => .error "password needed"⟩
      [⟨"i1", ⟨"a.pdf", "application/pdf", 9, 0, [37, 80, 68, 70, 45]⟩,
        PdfManager.FileState.compressed, none, none, 100⟩,
       ⟨"i2", ⟨"b.pdf", "application/pdf", 9, 0,
          [37, 80, 68, 70, 45, 47, 69, 110, 99, 114, 121, 112, 116]⟩,
        PdfManager.FileState.compressed, none, none, 100⟩]
      (by decide) (by decide) (by decide)).1).trans (by rfl)

/-- CLAIM C6, counterexample: on a payload with a valid `%PDF-` header
and an `/Encrypt` marker whose trial load fails with "bad xref" — a
message carrying none of the password/authentication/timeout markers —
`validatePdf` does **not** return `valid=false` with that message: the
inner catch falls through and the outcome is `valid=true` with no
error at all. -/
theorem C6_counterexample :
    (⟨fun _ => Except.error "bad xref"⟩ : PdfValidationService.PdfJsEnv).getDocument
        [37, 80, 68, 70, 45, 47, 69, 110, 99, 114, 121, 112, 116] = .error "bad xref" ∧
    PdfValidationService.isPasswordMarkerMsg "bad xref" = false ∧
    (PdfValidationService.validatePdf ⟨fun _ => Except.error "bad xref"⟩
        ⟨"doc.pdf", "application/pdf", 13, 0,
          [37, 80, 68, 70, 45, 47, 69, 110, 99, 114, 121, 112, 116]⟩).isValid = true ∧
    (PdfValidationService.validatePdf ⟨fun _ => Except.error "bad xref"⟩
        ⟨"doc.pdf", "application/pdf", 13, 0,
          [37, 80, 68, 70, 45, 47, 69, 110, 99, 114, 121, 112, 116]⟩).error = none := by
  refine ⟨rfl, by decide, ?_, ?_⟩ <;> decide

/-- CLAIM C6 (amended: `validatePdf` never throws — it is a total
function into `PdfValidationResult` — but a load attempt failing with
a message containing none of the password/authentication/timeout
markers does *not* produce `valid=false` with that message: the
service falls through to the heuristic "assume valid" return, yielding
`valid=true, encrypted=false, passwordRequired=false` and no error). -/
theorem C6_failure_fallthrough (env : PdfValidationService.PdfJsEnv) (file : File)
    (msg : String)
    (hhead : file.content.take 5 = PdfValidationService.pdfHeaderBytes)
    (hload : env.getDocument file.content = .error msg)
    (hmark : PdfValidationService.isPasswordMarkerMsg msg = false) :
    PdfValidationService.validatePdf env file =
      { isValid := true, isEncrypted := false, requiresPassword := false,
        pageCount := none, fileSize := some file.size, fileType := some file.type,
        metadata := none, error := none } := by
  unfold PdfValidationService.validatePdf PdfValidationService.checkPdfEncryption
  rw [if_neg (by simp [hhead])]
  by_cases henc : PdfValidationService.listIncludes PdfValidationService.encryptMarkerBytes
      (file.content.take (min 10000 file.content.length)) = true
  · rw [if_pos henc, hload]
    simp [hmark]
  · rw [if_neg henc]
    rfl

/-- Witness for C6 at the concrete non-marker load failure. -/
theorem C6_witness :
    PdfValidationService.validatePdf ⟨fun _ => Except.error "broken stream"⟩
        ⟨"d.pdf", "application/pdf", 13, 7,
          [37, 80, 68, 70, 45, 47, 69, 110, 99, 114, 121, 112, 116]⟩ =
      { isValid := true, isEncrypted := false, requiresPassword := false,
        pageCount := none, fileSize := some 13, fileType := some "application/pdf",
        metadata := none, error := none } :=
  C6_failure_fallthrough ⟨fun _ => Except.error "broken stream"⟩
    ⟨"d.pdf", "application/pdf", 13, 7,
      [37, 80, 68, 70, 45, 47, 69, 110, 99, 114, 121, 112, 116]⟩
    "broken stream" (by decide) rfl (by decide)

/-- CLAIM C7, counterexample: on a payload whose trial load opens
successfully as a 5-page document, `validatePdf` returns `valid=true`
but discards the loaded document: `pageCount` is `none`, not the
document's page count, and no metadata is returned. -/
theorem C7_counterexample :
    (⟨fun _ => Except.ok 5⟩ : PdfValidationService.PdfJsEnv).getDocument
        [37, 80, 68, 70, 45, 47, 69, 110, 99, 114, 121, 112, 116] = .ok 5 ∧
    (PdfValidationService.validatePdf ⟨fun _ => Except.ok 5⟩
        ⟨"ok.pdf", "application/pdf", 13, 0,
          [37, 80, 68, 70, 45, 47, 69, 110, 99, 114, 121, 112, 116]⟩).isValid = true ∧
    (PdfValidationService.validatePdf ⟨fun _ => Except.ok 5⟩
        ⟨"ok.pdf", "application/pdf", 13, 0,
          [37, 80, 68, 70, 45, 47, 69, 110, 99, 114, 121, 112, 116]⟩).pageCount = none ∧
    (PdfValidationService.validatePdf ⟨fun _ => Except.ok 5⟩
        ⟨"ok.pdf", "application/pdf", 13, 0,
          [37, 80, 68, 70, 45, 47, 69, 110, 99, 114, 121, 112, 116]⟩).pageCount ≠ some 5 ∧
    (PdfValidationService.validatePdf ⟨fun _ => Except.ok 5⟩
        ⟨"ok.pdf", "application/pdf", 13, 0,
          [37, 80, 68, 70, 45, 47, 69, 110, 99, 114, 121, 112, 116]⟩).metadata = none := by
  refine ⟨rfl, ?_, ?_, ?_, ?_⟩ <;> decide

/-- CLAIM C7 (amended: when the header is valid and the external
loader — if consulted at all — opens the document successfully,
`validatePdf` returns `valid=true, encrypted=false,
passwordRequired=false`, but never any `pageCount` or metadata: the
heuristic implementation discards the loaded document). -/
theorem C7_success_no_metadata (env : PdfValidationService.PdfJsEnv) (file : File) (n : Nat)
    (hhead : file.content.take 5 = PdfValidationService.pdfHeaderBytes)
    (hload : env.getDocument file.content = .ok n) :
    PdfValidationService.validatePdf env file =
      { isValid := true, isEncrypted := false, requiresPassword := false,
        pageCount := none, fileSize := some file.size, fileType := some file.type,
        metadata := none, error := none } := by
  unfold PdfValidationService.validatePdf PdfValidationService.checkPdfEncryption
  rw [if_neg (by simp [hhead])]
  by_cases henc : PdfValidationService.listIncludes PdfValidationService.encryptMarkerBytes
      (file.content.take (min 10000 file.content.length)) = true
  · rw [if_pos henc, hload]
    rfl
  · rw [if_neg henc]
    rfl

/-- Witness for C7 at a concrete successfully-loading payload. -/
theorem C7_witness :
    PdfValidationService.validatePdf ⟨fun _ => Except.ok 5⟩
        ⟨"g.pdf", "application/pdf", 13, 2,
          [37, 80, 68, 70, 45, 47, 69, 110, 99, 114, 121, 112, 116]⟩ =
      { isValid := true, isEncrypted := false, requiresPassword := false,
        pageCount := none, fileSize := some 13, fileType := some "application/pdf",
        metadata := none, error := none } :=
  C7_success_no_metadata ⟨fun _ => Except.ok 5⟩
    ⟨"g.pdf", "application/pdf", 13, 2,
      [37, 80, 68, 70, 45, 47, 69, 110, 99, 114, 121, 112, 116]⟩ 5 (by decide) rfl
